import Mathlib

/-!
Verification of the calendar-events tool (`src/calendar_events.py`).

The Python source is shallowly embedded: pure helper functions become Lean
functions over `List Char` / `String`, Python `datetime` values become the
`DateTime` structure below (naive wall-clock fields; the model treats the
year as an unbounded `Int`, so Python's year-range 1..9999 overflow errors
are outside the model), and calls into external libraries
(`dateutil.parser.parse`, `datetime.fromisoformat` composed with
`astimezone`, the Google API client) are abstracted as function parameters.
The ambient clock (`datetime.now()`) is passed explicitly as a `now`
argument, standard state-passing for an ambient effect.

Python string operations are modelled on `List Char` restricted to ASCII
behaviour (`str.lower`, `str.strip`, `str.split`, `str.replace`,
`str.rstrip`, substring membership, `int()` on an optional sign followed by
decimal digits).
-/

namespace CalEv

/-- ASCII whitespace test matching Python `str.strip` / `str.split` defaults
(space, tab, newline, carriage return, vertical tab, form feed). -/
def isPySpace (c : Char) : Bool :=
  c.toNat = 32 || c.toNat = 9 || c.toNat = 10 || c.toNat = 13 || c.toNat = 11 || c.toNat = 12

/-- ASCII decimal digit test. -/
def isDigitC (c : Char) : Bool :=
  48 ≤ c.toNat && c.toNat ≤ 57

/-- ASCII lower-casing of one character, as Python `str.lower` acts on ASCII. -/
def pyLowerChar (c : Char) : Char :=
  if 65 ≤ c.toNat && c.toNat ≤ 90 then Char.ofNat (c.toNat + 32) else c

/-- Python `str.lower` (ASCII fragment). -/
def pyLower (l : List Char) : List Char :=
  l.map pyLowerChar

/-- Python `str.strip()`: drop whitespace from both ends. -/
def pyStrip (l : List Char) : List Char :=
  ((l.dropWhile isPySpace).reverse.dropWhile isPySpace).reverse

/-- Accumulator-based splitter behind `pySplit`. -/
def splitAux (cur : List Char) : List Char → List (List Char)
  | [] => if cur.isEmpty then [] else [cur.reverse]
  | c :: rest =>
    if isPySpace c then
      if cur.isEmpty then splitAux [] rest else cur.reverse :: splitAux [] rest
    else splitAux (c :: cur) rest

/-- Python `str.split()` with no argument: split on whitespace runs, dropping
empty tokens. -/
def pySplit (l : List Char) : List (List Char) :=
  splitAux [] l

/-- Does `p` occur as a leading block of `l`? -/
def startsWithL : List Char → List Char → Bool
  | [], _ => true
  | _ :: _, [] => false
  | p :: ps, c :: cs => p == c && startsWithL ps cs

/-- Python substring membership `p in l`. -/
def containsSub (p : List Char) : List Char → Bool
  | [] => startsWithL p []
  | c :: cs => startsWithL p (c :: cs) || containsSub p cs

/-- Fuel-driven worker for `replaceSub`; the fuel dominates the number of
characters consumed, so `replaceSub` passes the input length. -/
def replaceFuel (p : List Char) : Nat → List Char → List Char
  | 0, l => l
  | _ + 1, [] => []
  | fuel + 1, c :: cs =>
    if !p.isEmpty && startsWithL p (c :: cs) then
      replaceFuel p fuel (cs.drop (p.length - 1))
    else
      c :: replaceFuel p fuel cs

/-- Python `str.replace(p, "")`: remove every (left-to-right, non-overlapping)
occurrence of `p`.  An empty pattern is treated as the identity. -/
def replaceSub (p : List Char) (l : List Char) : List Char :=
  replaceFuel p l.length l

/-- Python `str.rstrip("s")`: drop every trailing `s`. -/
def rstripS (l : List Char) : List Char :=
  (l.reverse.dropWhile (fun c => c == 's')).reverse

/-- Numeric value of a decimal digit string. -/
def digitsVal (l : List Char) : Nat :=
  l.foldl (fun a c => a * 10 + (c.toNat - 48)) 0

/-- Python `int()` on a whitespace-free token: optional sign then decimal
digits (underscore separators and non-ASCII digits are not modelled). -/
def pyInt : List Char → Option Int
  | [] => none
  | c :: cs =>
    if c = '-' then
      if !cs.isEmpty && cs.all isDigitC then some (-(digitsVal cs : Int)) else none
    else if c = '+' then
      if !cs.isEmpty && cs.all isDigitC then some ((digitsVal cs : Int)) else none
    else if (c :: cs).all isDigitC then some ((digitsVal (c :: cs) : Int)) else none

/-- Split on the character `-`, keeping empty tokens (used by the strict
`YYYY-MM-DD` parse). -/
def splitDashAux (cur : List Char) : List Char → List (List Char)
  | [] => [cur.reverse]
  | c :: cs => if c = '-' then cur.reverse :: splitDashAux [] cs else splitDashAux (c :: cur) cs

/-- Split a string on `-` separators, keeping empty tokens. -/
def splitDash (l : List Char) : List (List Char) :=
  splitDashAux [] l

/-- Python `str.lower` on a `String`. -/
def lowerS (s : String) : String :=
  String.mk (pyLower s.data)

/-! ## Calendar arithmetic (the fragment of `datetime` / `dateutil` the
source uses) -/

/-- A naive Python `datetime` value: wall-clock fields with no timezone.
The year is an unbounded `Int` (Python's 1..9999 range is not enforced). -/
structure DateTime where
  year : Int
  month : Nat
  day : Nat
  hour : Nat
  minute : Nat
  second : Nat
  microsecond : Nat
deriving DecidableEq

/-- Proleptic Gregorian leap-year test. -/
def isLeap (y : Int) : Bool :=
  y % 4 = 0 && (y % 100 ≠ 0 || y % 400 = 0)

/-- Length of month `m` of year `y`. -/
def daysInMonth (y : Int) (m : Nat) : Nat :=
  if m = 2 then (if isLeap y then 29 else 28)
  else if m = 4 || m = 6 || m = 9 || m = 11 then 30
  else 31

/-- Days in year `y` strictly before month `m`. -/
def daysBeforeMonth (y : Int) (m : Nat) : Nat :=
  ((List.range (m - 1)).map (fun i => daysInMonth y (i + 1))).sum

/-- Days before January 1 of year `y` in the proleptic Gregorian calendar
(Python `datetime.toordinal` has day 1 = 0001-01-01). -/
def daysBeforeYear (y : Int) : Int :=
  365 * (y - 1) + Int.fdiv (y - 1) 4 - Int.fdiv (y - 1) 100 + Int.fdiv (y - 1) 400

/-- Python `datetime.toordinal` of a calendar date. -/
def toOrd (y : Int) (m d : Nat) : Int :=
  daysBeforeYear y + daysBeforeMonth y m + d

/-- Walk through the months of year `y` to locate the month containing the
0-based day-of-year `rem`; the fuel is always 12. -/
def monthLoop (y : Int) (m : Nat) (rem : Nat) : Nat → Int × Nat × Nat
  | 0 => (y, m, rem + 1)
  | fuel + 1 =>
    if rem < daysInMonth y m then (y, m, rem + 1)
    else monthLoop y (m + 1) (rem - daysInMonth y m) fuel

/-- Inverse of `toOrd` (CPython `_ord2ymd`). -/
def fromOrd (n0 : Int) : Int × Nat × Nat :=
  let n := n0 - 1
  let n400 := Int.fdiv n 146097
  let r400 := Int.fmod n 146097
  let n100 := Int.fdiv r400 36524
  let r100 := Int.fmod r400 36524
  let n4 := Int.fdiv r100 1461
  let r4 := Int.fmod r100 1461
  let n1 := Int.fdiv r4 365
  let r1 := Int.fmod r4 365
  let year := n400 * 400 + 1 + n100 * 100 + n4 * 4 + n1
  if n1 = 4 || n100 = 4 then (year - 1, 12, 31)
  else monthLoop year 1 r1.toNat 12

/-- `datetime + timedelta(days = n)`: fixed-duration day arithmetic; the
time-of-day fields are unchanged. -/
def addDays (d : DateTime) (n : Int) : DateTime :=
  let o := toOrd d.year d.month d.day + n
  let ymd := fromOrd o
  { d with year := ymd.1, month := ymd.2.1, day := ymd.2.2 }

/-- `datetime - relativedelta(months = m)`: shift the calendar month field by
`m` and clamp the day to the length of the resulting month, exactly
dateutil's normalisation (total-month arithmetic with floor division). -/
def subMonths (d : DateTime) (m : Int) : DateTime :=
  let t : Int := d.year * 12 + ((d.month : Int) - 1) - m
  let y := Int.fdiv t 12
  let mo := (Int.fmod t 12).toNat + 1
  { d with year := y, month := mo, day := min d.day (daysInMonth y mo) }

/-- `datetime - relativedelta(years = m)`: shift the calendar year field and
clamp the day (relevant only for February 29). -/
def subYears (d : DateTime) (m : Int) : DateTime :=
  let y := d.year - m
  { d with year := y, day := min d.day (daysInMonth y d.month) }

/-- `dt.replace(hour=0, minute=0, second=0, microsecond=0)`. -/
def midnight (d : DateTime) : DateTime :=
  { d with hour := 0, minute := 0, second := 0, microsecond := 0 }

/-- `dt.replace(hour=23, minute=59, second=59, microsecond=999999)`. -/
def endOfDay (d : DateTime) : DateTime :=
  { d with hour := 23, minute := 59, second := 59, microsecond := 999999 }

/-- Field-lexicographic order key, as naive Python datetimes compare. -/
def DateTime.key (d : DateTime) : List Int :=
  [d.year, d.month, d.day, d.hour, d.minute, d.second, d.microsecond]

/-- Lexicographic `≤` on integer lists. -/
def lexLeI : List Int → List Int → Bool
  | [], _ => true
  | _ :: _, [] => false
  | a :: as, b :: bs => a < b || (a == b && lexLeI as bs)

/-- Python `<=` on naive datetimes. -/
def dtLE (a b : DateTime) : Bool :=
  lexLeI a.key b.key

/-- Decimal rendering of `n` left-padded with zeros to width `w`
(`strftime` zero padding). -/
def padNum (w n : Nat) : String :=
  String.mk (List.replicate (w - (Nat.repr n).length) '0' ++ (Nat.repr n).data)

/-- `dt.strftime("%Y-%m-%d")` (years below 1 are outside the model). -/
def fmtDate (d : DateTime) : String :=
  padNum 4 d.year.toNat ++ "-" ++ padNum 2 d.month ++ "-" ++ padNum 2 d.day

/-- `dt.strftime("%H:%M:%S")`. -/
def fmtTime (d : DateTime) : String :=
  padNum 2 d.hour ++ ":" ++ padNum 2 d.minute ++ ":" ++ padNum 2 d.second

/-! ## `parse_human_date` and `parse_date_arguments`

`parse_human_date` works on the trimmed, lower-cased input.  The general
natural-language parser (`dateutil.parser.parse(s, default=today)`) is an
external library and is abstracted as a parameter
`g : DateTime → List Char → Option DateTime` receiving `today` and the
normalized string; `none` models the caught `ValueError`/`TypeError`. -/

/-- The quote character, used in the error message. -/
def qc : Char := Char.ofNat 39

/-- `date_str.strip().lower()` from the head of `parse_human_date`. -/
def normalizeStr (s : List Char) : List Char :=
  pyLower (pyStrip s)

/-- The unit dispatch of the `"ago"` branch (lines 86-96): a parsed amount
(`none` when `int()` raised) and the `rstrip("s")`-ed unit word. -/
def agoFromInt (today : DateTime) (unit : List Char) : Option Int → Option DateTime
  | some amount =>
    if unit = ("day").data then some (addDays today (-amount))
    else if unit = ("week").data then some (addDays today (-(7 * amount)))
    else if unit = ("month").data then some (subMonths today amount)
    else if unit = ("year").data then some (subYears today amount)
    else none
  | none => none

/-- The `len(parts) >= 2` guard and indexing of the `ago` branch. -/
def agoFromParts (today : DateTime) : List (List Char) → Option DateTime
  | p0 :: p1 :: _ => agoFromInt today (rstripS p1) (pyInt p0)
  | _ => none

/-- The `"ago"` branch of `parse_human_date` (lines 81-98): on
`"<int> <unit>[s] ago"` subtract the amount from `today`; `none` means the
branch fell through (malformed integer, too few parts or unknown unit). -/
def agoResult (today : DateTime) (s : List Char) : Option DateTime :=
  if containsSub ("ago").data s then
    agoFromParts today (pySplit (pyStrip (replaceSub ("ago").data s)))
  else none

/-- The unit dispatch of the `"in "` branch (lines 104-115). -/
def inFromInt (today : DateTime) (unit : List Char) : Option Int → Option DateTime
  | some amount =>
    if unit = ("day").data then some (addDays today amount)
    else if unit = ("week").data then some (addDays today (7 * amount))
    else if unit = ("month").data then some (subMonths today (-amount))
    else if unit = ("year").data then some (subYears today (-amount))
    else none
  | none => none

/-- The `len(parts) >= 2` guard and indexing of the `in` branch. -/
def inFromParts (today : DateTime) : List (List Char) → Option DateTime
  | p0 :: p1 :: _ => inFromInt today (rstripS p1) (pyInt p0)
  | _ => none

/-- The `"in "` branch of `parse_human_date` (lines 101-117). -/
def inResult (today : DateTime) (s : List Char) : Option DateTime :=
  if startsWithL ("in ").data s then inFromParts today (pySplit (s.drop 3))
  else none

/-- The strict fallback `datetime.strptime(s, "%Y-%m-%d")` (line 136):
exactly four year digits, one or two month digits, one or two day digits,
separated by `-`, with the month in 1..12, the day valid for the month and
the year at least 1 (the `datetime` constructor validation). -/
def ymdResult (s : List Char) : Option DateTime :=
  match splitDash s with
  | [ys, ms, ds] =>
    if ys.length = 4 && ys.all isDigitC && (ms.length = 1 || ms.length = 2) && ms.all isDigitC
        && (ds.length = 1 || ds.length = 2) && ds.all isDigitC then
      let y : Int := (digitsVal ys : Int)
      let m := digitsVal ms
      let d := digitsVal ds
      if 1 ≤ y && 1 ≤ m && m ≤ 12 && 1 ≤ d && d ≤ daysInMonth y m then
        some ⟨y, m, d, 0, 0, 0, 0⟩
      else none
    else none
  | _ => none

/-- The `ValueError` message of line 138:
`Could not parse date: '<s>'. Try formats like '2024-01-15', 'yesterday',
'2 weeks ago', 'next Monday', etc.` (built without literal apostrophes). -/
def dateErrMsg (s : List Char) : List Char :=
  ("Could not parse date: ").data ++ [qc] ++ s ++ [qc] ++
  (". Try formats like ").data ++ [qc] ++ ("2024-01-15").data ++ [qc] ++
  (", ").data ++ [qc] ++ ("yesterday").data ++ [qc] ++
  (", ").data ++ [qc] ++ ("2 weeks ago").data ++ [qc] ++
  (", ").data ++ [qc] ++ ("next Monday").data ++ [qc] ++ (", etc.").data

/-- `parse_human_date` (lines 72-138).  The ambient `datetime.now()` is the
explicit argument `now`; `today` is `now` truncated to midnight.  A raised
`ValueError` is `Except.error` carrying the message. -/
def parse_human_date (g : DateTime → List Char → Option DateTime) (now : DateTime)
    (s0 : List Char) : Except (List Char) DateTime :=
  let today := midnight now
  let s := normalizeStr s0
  match agoResult today s with
  | some d => Except.ok d
  | none =>
  match inResult today s with
  | some d => Except.ok d
  | none =>
  if s = ("today").data then Except.ok today
  else if s = ("yesterday").data then Except.ok (addDays today (-1))
  else if s = ("tomorrow").data then Except.ok (addDays today 1)
  else
  match g today s with
  | some d => Except.ok (midnight d)
  | none =>
  match ymdResult s with
  | some d => Except.ok d
  | none => Except.error (dateErrMsg s)

/-- Python truthiness of an optional string CLI argument: `None` and the
empty string are falsy. -/
def truthyL (o : Option (List Char)) : Bool :=
  !(o.getD []).isEmpty

/-- `parse_date_arguments` (lines 140-170): resolve optional start/end
strings to the `(start_dt, end_dt)` range; errors from `parse_human_date`
propagate. -/
def parse_date_arguments (g : DateTime → List Char → Option DateTime) (now : DateTime)
    (sa ea : Option (List Char)) : Except (List Char) (DateTime × DateTime) :=
  let today := midnight now
  match (if truthyL sa then parse_human_date g now (sa.getD []) else Except.ok today) with
  | Except.error m => Except.error m
  | Except.ok start_dt =>
    if truthyL ea then
      match parse_human_date g now (ea.getD []) with
      | Except.error m => Except.error m
      | Except.ok d => Except.ok (start_dt, endOfDay d)
    else
      if dtLE today start_dt then Except.ok (start_dt, endOfDay (addDays start_dt 14))
      else Except.ok (start_dt, endOfDay today)

/-! ## Event records and the filter / formatter

A raw Google event is modelled with exactly the fields the source reads.
`summary : Option (Option String)` distinguishes an absent `summary` key
(`none`) from a key bound to JSON null (`some none`) — `dict.get` with a
default distinguishes these.  An absent `attendees`/`attachments` key and an
empty list behave identically everywhere in the source, so both are `[]`. -/

structure Attendee where
  email : Option String
  responseStatus : Option String
deriving DecidableEq

structure EventTime where
  dateTime : Option String
  date : Option String
deriving DecidableEq

structure RawAttachment where
  title : Option String
  fileUrl : Option String
  mimeType : Option String
deriving DecidableEq

structure Event where
  eventType : Option String
  attendees : List Attendee
  start : EventTime
  endT : EventTime
  summary : Option (Option String)
  attachments : List RawAttachment
deriving DecidableEq

structure Attachment where
  title : String
  fileUrl : String
  mimeType : String
deriving DecidableEq

structure FormattedEvent where
  date : String
  start_time : String
  end_time : String
  title : Option String
  accepted_attendees : List String
  attachments : List Attachment
deriving DecidableEq

/-- Python `a or b` on two optional strings followed by use as a string:
the first truthy (present and non-empty) value, else `""`. -/
def pyOrVal (a b : Option String) : String :=
  if a.getD "" ≠ "" then a.getD "" else b.getD ""

/-- `is_user_invited` (lines 172-182): empty attendee list means invited;
otherwise some attendee's email (lower-cased, absent email read as `""`)
must equal the lower-cased user email. -/
def is_user_invited (e : Event) (u : String) : Bool :=
  if e.attendees.isEmpty then true
  else e.attendees.any (fun a => lowerS (a.email.getD "") == lowerS u)

/-- `has_user_declined` (lines 184-194): the first attendee whose email
matches decides; no match (or no attendees) means not declined. -/
def has_user_declined (e : Event) (u : String) : Bool :=
  match e.attendees.find? (fun a => lowerS (a.email.getD "") == lowerS u) with
  | some a => a.responseStatus == some ("declined")
  | none => false

/-- The accumulating loop of `get_accepted_attendees` (lines 202-211):
missing `responseStatus` defaults to `"needsAction"`; an attendee whose
email is absent or empty (falsy) is skipped. -/
def acceptedLoop : List Attendee → List String
  | [] => []
  | a :: rest =>
    let rs := a.responseStatus.getD ("needsAction")
    if rs = "accepted" || rs = "tentative" then
      match a.email with
      | some em => if em = "" then acceptedLoop rest else em :: acceptedLoop rest
      | none => acceptedLoop rest
    else acceptedLoop rest

/-- `get_accepted_attendees` (lines 196-211). -/
def get_accepted_attendees (e : Event) : List String :=
  if e.attendees.isEmpty then [] else acceptedLoop e.attendees

/-- `get_event_attachments` (lines 213-226): projection with `""` defaults. -/
def get_event_attachments (e : Event) : List Attachment :=
  e.attachments.map (fun a => ⟨a.title.getD "", a.fileUrl.getD "", a.mimeType.getD ""⟩)

/-- The `'Z'` preprocessing of lines 237-238: replace a trailing `Z` by
`+00:00` before calling `fromisoformat`. -/
def zfixed (s : String) : String :=
  if s.data.getLast? == some 'Z' then String.mk (s.data.dropLast ++ ("+00:00").data) else s

/-- `format_datetime` (lines 228-251).  `fromiso` abstracts
`datetime.fromisoformat` followed by `astimezone()` when the parse is
timezone-aware: it returns the final local wall-clock value, `none` meaning
the caught `ValueError`.  Strings without `T` are the date-only branch and
are passed through unvalidated. -/
def format_datetime (fromiso : String → Option DateTime) (dt_str : String) : String × String :=
  if dt_str = "" then ("", "")
  else if dt_str.data.contains 'T' then
    match fromiso (zfixed dt_str) with
    | some dt => (fmtDate dt, fmtTime dt)
    | none => ("", "")
  else (dt_str, "00:00:00")

/-- `should_include_event` (lines 253-295).  `toInstant` abstracts lines
275-287 (ISO/date-only parse, `Z` handling, conversion to an aware local
instant): it maps the start string to an absolute instant (`Int`), `none`
meaning the caught `ValueError`, in which case the event is kept. -/
def should_include_event (toInstant : String → Option Int) (e : Event) (u : String)
    (now : Int) : Bool :=
  if e.eventType == some ("workingLocation") then false
  else if !is_user_invited e u then false
  else
    let sv := pyOrVal e.start.dateTime e.start.date
    if sv = "" then true
    else
      match toInstant sv with
      | none => true
      | some t => if decide (now < t) && has_user_declined e u then false else true

/-- The per-event formatting block of `fetch_calendar_events`
(lines 332-351), including the all-day forcing of lines 339-342. -/
def format_event (fromiso : String → Option DateTime) (e : Event) : FormattedEvent :=
  let sres := format_datetime fromiso (pyOrVal e.start.dateTime e.start.date)
  let eres := format_datetime fromiso (pyOrVal e.endT.dateTime e.endT.date)
  let allday := (sres.2 == "" || sres.2 == "00:00:00") && (e.start.date.getD "" != "")
  { date := sres.1
    start_time := if allday then "00:00:00" else sres.2
    end_time := if allday then "23:59:59" else eres.2
    title := match e.summary with | none => some ("No Title") | some v => v
    accepted_attendees := get_accepted_attendees e
    attachments := get_event_attachments e }

/-- The filter-and-format loop of `fetch_calendar_events` (lines 326-353):
included events, in input order, each formatted. -/
def filter_and_format (toInstant : String → Option Int) (fromiso : String → Option DateTime)
    (u : String) (now : Int) (events : List Event) : List FormattedEvent :=
  (events.filter (fun e => should_include_event toInstant e u now)).map (format_event fromiso)

/-! ## Output streams

Lines printed by the program, as structured tokens tagged by call site. -/

inductive Line where
  | fetchingFor (u : String)
  | dateRange (a b : String)
  | foundTotal (n : Nat)
  | filteredTo (n : Nat)
  | errOccurred (msg : String)
  | errorMsg (msg : List Char)
  | jsonOut (evs : List FormattedEvent)
deriving DecidableEq

/-- Result of one `fetch_calendar_events` call: returned events plus what was
printed on stdout and stderr. -/
structure RunOut where
  result : List FormattedEvent
  outLines : List Line
  errLines : List Line
deriving DecidableEq

/-- `fetch_calendar_events` (lines 297-360) after credentials and user-email
lookup (external collaborators; `u` is the resolved user email).  `api` is
the outcome of the provider call: `Except.error` is a raised `HttpError`,
whose handler (lines 358-360) prints `An error occurred: ...` via a bare
`print`, i.e. to stdout, and returns `[]`. -/
def fetch_calendar_events (toInstant : String → Option Int)
    (fromiso : String → Option DateTime) (u : String) (now : Int)
    (startT endT : DateTime) (api : Except String (List Event)) : RunOut :=
  let pre := [Line.fetchingFor u, Line.dateRange (fmtDate startT) (fmtDate endT)]
  match api with
  | Except.error err => ⟨[], [Line.errOccurred err], pre⟩
  | Except.ok evs =>
    let fe := filter_and_format toInstant fromiso u now evs
    ⟨fe, [], pre ++ [Line.foundTotal evs.length, Line.filteredTo fe.length]⟩

/-- Exit code and streams of one run of `main`. -/
structure MainOut where
  exitCode : Nat
  outLines : List Line
  errLines : List Line
deriving DecidableEq

/-- `main` (lines 362-397): resolve the date range, fetch, print the JSON
document on stdout; a `ValueError` (date-parse failure) prints
`Error: <msg>` on stderr and exits 1. -/
def main_model (g : DateTime → List Char → Option DateTime) (now : DateTime)
    (sa ea : Option (List Char)) (toInstant : String → Option Int)
    (fromiso : String → Option DateTime) (u : String) (nowI : Int)
    (api : Except String (List Event)) : MainOut :=
  match parse_date_arguments g now sa ea with
  | Except.error msg => ⟨1, [], [Line.errorMsg msg]⟩
  | Except.ok r =>
    let f := fetch_calendar_events toInstant fromiso u nowI r.1 r.2 api
    ⟨0, f.outLines ++ [Line.jsonOut f.result], f.errLines⟩

/-! ## Specification-side definitions

These follow the wording of the specification, to be compared with the
definitions translated from the source. -/

/-- The inclusion predicate as the specification words it: not a working
location event; invited (no attendees, or the user email case-insensitively
among the attendee emails); and not (start instant strictly after `now`
while the user's attendee entry has `responseStatus = "declined"`) — in
particular an unparseable or absent start never excludes. -/
def includeSpec (toInstant : String → Option Int) (e : Event) (u : String) (now : Int) : Prop :=
  e.eventType ≠ some ("workingLocation") ∧
  (e.attendees = [] ∨ ∃ a, a ∈ e.attendees ∧ ∃ em, a.email = some em ∧ lowerS em = lowerS u) ∧
  ¬ (∃ t, pyOrVal e.start.dateTime e.start.date ≠ "" ∧
      toInstant (pyOrVal e.start.dateTime e.start.date) = some t ∧ now < t ∧
      ∃ a, a ∈ e.attendees ∧ (∃ em, a.email = some em ∧ lowerS em = lowerS u) ∧
        a.responseStatus = some ("declined"))

/-- Accepted attendees as claim C6 words it: the emails of the attendees
whose `responseStatus` is `accepted` or `tentative`, in input order. -/
def acceptedAttendeesClaim (e : Event) : List String :=
  (e.attendees.filter
      (fun a => a.responseStatus == some ("accepted") || a.responseStatus == some ("tentative"))).filterMap
    (fun a => a.email)

/-- Accepted attendees as the source computes them: additionally skipping
attendees whose email is absent or empty. -/
def acceptedSpec (e : Event) : List String :=
  (e.attendees.filter
      (fun a => a.responseStatus == some ("accepted") || a.responseStatus == some ("tentative"))).filterMap
    (fun a => match a.email with
      | some em => if em = "" then none else some em
      | none => none)

/-- All five parsing strategies fail on the normalized input: the `ago`
branch, the `in` branch, the named relative terms, the general
natural-language parse and the strict `YYYY-MM-DD` parse. -/
def allStrategiesFail (g : DateTime → List Char → Option DateTime) (now : DateTime)
    (s0 : List Char) : Prop :=
  agoResult (midnight now) (normalizeStr s0) = none ∧
  inResult (midnight now) (normalizeStr s0) = none ∧
  normalizeStr s0 ≠ ("today").data ∧
  normalizeStr s0 ≠ ("yesterday").data ∧
  normalizeStr s0 ≠ ("tomorrow").data ∧
  g (midnight now) (normalizeStr s0) = none ∧
  ymdResult (normalizeStr s0) = none

/-- The time units accepted by the relative-phrase parsers. -/
inductive TUnit where
  | day
  | week
  | month
  | year
deriving DecidableEq

/-- The written unit word, singular or plural. -/
def unitChars : TUnit → Bool → List Char
  | TUnit.day, false => ("day").data
  | TUnit.day, true => ("days").data
  | TUnit.week, false => ("week").data
  | TUnit.week, true => ("weeks").data
  | TUnit.month, false => ("month").data
  | TUnit.month, true => ("months").data
  | TUnit.year, false => ("year").data
  | TUnit.year, true => ("years").data

/-- `today` minus `n` units as claim C3 words it: fixed-duration arithmetic
for days and weeks, calendar-field shift with month-end clamping for months
and years. -/
def agoSpec (today : DateTime) : TUnit → Nat → DateTime
  | TUnit.day, n => addDays today (-(n : Int))
  | TUnit.week, n => addDays today (-(7 * (n : Int)))
  | TUnit.month, n => subMonths today ((n : Int))
  | TUnit.year, n => subYears today ((n : Int))

/-! ## Concrete instances used by witnesses and counterexamples -/

/-- The error payload of a parse outcome (`[]` for success). -/
def errOf : Except (List Char) DateTime → List Char
  | Except.error m => m
  | Except.ok _ => []

/-- A general natural-language parser that recognises nothing (e.g. dateutil
on garbage input). -/
def gNone : DateTime → List Char → Option DateTime := fun _ _ => none

/-- An ISO parser that fails on every input. -/
def noIso : String → Option DateTime := fun _ => none

/-- A start-instant parser that fails on every input. -/
def noInst : String → Option Int := fun _ => none

/-- A start-instant parser mapping every string to instant 100. -/
def instHundred : String → Option Int := fun _ => some 100

def nowA : DateTime := ⟨2024, 6, 10, 5, 0, 0, 0⟩

def nowA2 : DateTime := ⟨2024, 6, 10, 22, 15, 0, 0⟩

def nowB : DateTime := ⟨2030, 1, 1, 5, 0, 0, 0⟩

def now0331 : DateTime := ⟨2024, 3, 31, 12, 5, 0, 0⟩

def now0331b : DateTime := ⟨2023, 3, 31, 12, 5, 0, 0⟩

/-- An event whose start and end `date` fields are malformed date-only
strings (no `T`). -/
def evC4 : Event :=
  ⟨none, [], ⟨none, some ("not-a-date")⟩, ⟨none, some ("not-a-date")⟩, none, []⟩

/-- An event with an accepted attendee whose email is the empty string,
followed by an accepted attendee with a real email. -/
def evC6 : Event :=
  ⟨none, [⟨some (""), some ("accepted")⟩, ⟨some ("a@b.c"), some ("accepted")⟩],
   ⟨none, none⟩, ⟨none, none⟩, none, []⟩

/-- A future event the user has accepted. -/
def evC1 : Event :=
  ⟨none, [⟨some ("A@B.com"), some ("accepted")⟩],
   ⟨some ("2024-06-10T10:00:00Z"), none⟩, ⟨some ("2024-06-10T11:00:00Z"), none⟩,
   some (some ("standup")), []⟩

/-- An all-day event: date-only start and end. -/
def evC5 : Event :=
  ⟨none, [], ⟨none, some ("2024-06-10")⟩, ⟨none, some ("2024-06-11")⟩,
   some (some ("holiday")), []⟩

/-- An event whose `summary` key is present and bound to the empty string. -/
def evC10 : Event :=
  ⟨none, [], ⟨none, some ("2024-06-10")⟩, ⟨none, some ("2024-06-11")⟩,
   some (some ("")), []⟩

/-! ## Theorems -/

/-- `parse_human_date` reads the ambient clock only through `today`
(= `now` truncated to midnight). -/
theorem phd_midnight_only (g : DateTime → List Char → Option DateTime)
    (nowA nowB : DateTime) (s : List Char) (h : midnight nowA = midnight nowB) :
    parse_human_date g nowA s = parse_human_date g nowB s := by
  simp only [parse_human_date, h]

/-- C10: the formatted title equals the `summary` value whenever the key is
present — including the empty string and null — and is the literal
`"No Title"` when the key is absent. -/
theorem title_from_summary :
    ∀ (fromiso : String → Option DateTime) (e : Event),
      (e.summary = none → (format_event fromiso e).title = some ("No Title")) ∧
      (∀ v, e.summary = some v → (format_event fromiso e).title = v) := by
  intro fromiso e
  constructor
  · intro h
    simp [format_event, h]
  · intro v h
    simp [format_event, h]

/-- Witness for C10: a present-but-empty summary is kept verbatim. -/
theorem title_from_summary_inst :
    (format_event noIso evC10).title = some ("") :=
  (title_from_summary noIso evC10).2 (some ("")) rfl

/-- C8: when the provider call raises, the fetch returns an empty event list
and the `An error occurred: ...` line is printed on stdout — the JSON output
stream — and not on stderr (line 359 lacks `file=sys.stderr`). -/
theorem fetch_error_output_streams :
    ∀ (toInstant : String → Option Int) (fromiso : String → Option DateTime)
      (u : String) (nowI : Int) (sT eT : DateTime) (err : String),
      (fetch_calendar_events toInstant fromiso u nowI sT eT (Except.error err)).result = [] ∧
      Line.errOccurred err ∈
        (fetch_calendar_events toInstant fromiso u nowI sT eT (Except.error err)).outLines ∧
      Line.errOccurred err ∉
        (fetch_calendar_events toInstant fromiso u nowI sT eT (Except.error err)).errLines := by
  intro toInstant fromiso u nowI sT eT err
  refine ⟨rfl, by simp [fetch_calendar_events], ?_⟩
  simp [fetch_calendar_events]

/-- C5: an all-day event (date-only, non-empty, `T`-free start and end
fields) is always formatted with `start_time = "00:00:00"` and
`end_time = "23:59:59"`. -/
theorem allday_times_forced :
    ∀ (fromiso : String → Option DateTime) (e : Event) (d1 d2 : String),
      e.start.dateTime = none → e.start.date = some d1 → d1 ≠ "" →
      d1.data.contains 'T' = false →
      e.endT.dateTime = none → e.endT.date = some d2 →
      (format_event fromiso e).start_time = "00:00:00" ∧
      (format_event fromiso e).end_time = "23:59:59" := by
  intro fromiso e d1 d2 hsdt hsd hne hT hedt hed
  have hT2 : ¬ ('T' ∈ d1.data) := by simpa using hT
  have hval : pyOrVal e.start.dateTime e.start.date = d1 := by
    simp [pyOrVal, hsdt, hsd]
  have hfd : format_datetime fromiso (pyOrVal e.start.dateTime e.start.date) =
      (d1, "00:00:00") := by
    rw [hval]
    simp [format_datetime, hne, hT2]
  constructor
  · simp only [format_event, hfd]
    simp [hsd, hne]
  · simp only [format_event, hfd]
    simp [hsd, hne]

/-- Witness for C5 at a concrete all-day event. -/
theorem allday_times_forced_inst :
    (format_event noIso evC5).start_time = "00:00:00" ∧
    (format_event noIso evC5).end_time = "23:59:59" :=
  allday_times_forced noIso evC5 ("2024-06-10") ("2024-06-11") rfl rfl
    (by decide) (by decide) rfl rfl

/-- Counterexample to C6 as stated: an accepted attendee with an
empty-string email is skipped by the code, so the output is not exactly
"the attendee emails whose responseStatus is accepted or tentative". -/
theorem accepted_attendees_empty_email :
    get_accepted_attendees evC6 ≠ acceptedAttendeesClaim evC6 := by decide

/-- C6 (amended): the accepted-attendees list consists of the non-empty
present emails of the attendees whose `responseStatus` is `accepted` or
`tentative`, in input order; an absent or empty attendees list yields `[]`. -/
theorem get_accepted_attendees_spec :
    ∀ e : Event, get_accepted_attendees e = acceptedSpec e := by
  have hloop : ∀ l : List Attendee,
      acceptedLoop l =
        (l.filter (fun a => a.responseStatus == some ("accepted")
            || a.responseStatus == some ("tentative"))).filterMap
          (fun a => match a.email with
            | some em => if em = "" then none else some em
            | none => none) := by
    intro l
    induction l with
    | nil => rfl
    | cons a rest ih =>
      have hcond : ((a.responseStatus.getD ("needsAction") = "accepted")
            ∨ (a.responseStatus.getD ("needsAction") = "tentative")) ↔
          (a.responseStatus = some ("accepted") ∨ a.responseStatus = some ("tentative")) := by
        cases h : a.responseStatus with
        | none => simp [h]
        | some r => simp [h]
      by_cases hc : a.responseStatus = some ("accepted") ∨ a.responseStatus = some ("tentative")
      · have hget : a.responseStatus.getD ("needsAction") = "accepted"
            ∨ a.responseStatus.getD ("needsAction") = "tentative" := hcond.mpr hc
        have hfilter : (a :: rest).filter (fun a => a.responseStatus == some ("accepted")
              || a.responseStatus == some ("tentative")) =
            a :: rest.filter (fun a => a.responseStatus == some ("accepted")
              || a.responseStatus == some ("tentative")) := by
          rw [List.filter_cons_of_pos]
          simpa using hc
        rw [hfilter]
        cases hem : a.email with
        | none =>
          simp only [acceptedLoop, hem]
          rw [if_pos (by simpa using hget)]
          rw [List.filterMap_cons]
          simp [hem, ih]
        | some em =>
          by_cases heme : em = ""
          · simp only [acceptedLoop, hem]
            rw [if_pos (by simpa using hget)]
            rw [List.filterMap_cons]
            simp [hem, heme, ih]
          · simp only [acceptedLoop, hem]
            rw [if_pos (by simpa using hget)]
            rw [List.filterMap_cons]
            simp [hem, heme, ih]
      · have hget : ¬ (a.responseStatus.getD ("needsAction") = "accepted"
            ∨ a.responseStatus.getD ("needsAction") = "tentative") := fun hx => hc (hcond.mp hx)
        have hfilter : (a :: rest).filter (fun a => a.responseStatus == some ("accepted")
              || a.responseStatus == some ("tentative")) =
            rest.filter (fun a => a.responseStatus == some ("accepted")
              || a.responseStatus == some ("tentative")) := by
          rw [List.filter_cons_of_neg]
          simpa using hc
        rw [hfilter]
        simp only [acceptedLoop]
        rw [if_neg (by simpa using hget)]
        exact ih
  intro e
  unfold get_accepted_attendees acceptedSpec
  by_cases h : e.attendees.isEmpty
  · rw [if_pos h]
    rw [List.isEmpty_iff] at h
    rw [h]
    rfl
  · rw [if_neg h]
    exact hloop e.attendees

/-- Counterexample to C4 as stated: a malformed date-only (no `T`) value is
passed through verbatim, not degraded to the empty string. -/
theorem format_date_only_passthrough :
    (format_event noIso evC4).date = "not-a-date" ∧ (format_event noIso evC4).date ≠ "" := by
  decide

/-- C4 (amended): an unparseable `dateTime`-style (containing `T`) value
degrades to empty date and time strings without raising, and formatting
never drops an included event (one formatted record per included event). -/
theorem format_datetime_failopen :
    (∀ (fromiso : String → Option DateTime) (s : String),
       s.data.contains 'T' = true → fromiso (zfixed s) = none →
       format_datetime fromiso s = ("", "")) ∧
    (∀ (toInstant : String → Option Int) (fromiso : String → Option DateTime)
       (u : String) (now : Int) (evs : List Event),
       (filter_and_format toInstant fromiso u now evs).length =
         (evs.filter (fun e => should_include_event toInstant e u now)).length) := by
  constructor
  · intro fromiso s hT hf
    have hne : s ≠ "" := by
      intro h
      rw [h] at hT
      simp at hT
    have hT2 : 'T' ∈ s.data := by simpa using hT
    simp [format_datetime, hne, hT2, hf]
  · intro toInstant fromiso u now evs
    simp [filter_and_format]

/-- Witness for C4 (amended) at a concrete unparseable timestamp. -/
theorem format_datetime_failopen_inst :
    format_datetime noIso ("2024-06-10Tbad") = ("", "") :=
  format_datetime_failopen.1 noIso ("2024-06-10Tbad") (by decide) rfl

/-- C2: with `end_arg` present (non-empty), the end is the parsed value
forced to 23:59:59.999999; with it absent, the end is `start + 14 days`
(end of day) when `start ≥ today`, else `today` (end of day). -/
theorem parse_date_arguments_end_rule :
    ∀ (g : DateTime → List Char → Option DateTime) (now : DateTime)
      (sa ea : Option (List Char)) (s e : DateTime),
      parse_date_arguments g now sa ea = Except.ok (s, e) →
      ((∀ l, ea = some l → l ≠ [] →
          ∃ d, parse_human_date g now l = Except.ok d ∧ e = endOfDay d) ∧
       ((ea = none ∨ ea = some []) →
          e = if dtLE (midnight now) s then endOfDay (addDays s 14)
              else endOfDay (midnight now))) := by
  intro g now sa ea s e h
  simp only [parse_date_arguments] at h
  split at h
  · exact absurd h (by simp)
  · rename_i start_dt hstart
    by_cases hea : truthyL ea = true
    · rw [if_pos hea] at h
      split at h
      · exact absurd h (by simp)
      · rename_i d hd
        rw [Except.ok.injEq, Prod.mk.injEq] at h
        obtain ⟨h1, h2⟩ := h
        subst h1
        subst h2
        constructor
        · intro l hl hlne
          rw [hl] at hd
          exact ⟨d, by simpa using hd, rfl⟩
        · intro hcases
          rcases hcases with h0 | h0 <;> rw [h0] at hea <;> simp [truthyL] at hea
    · rw [if_neg hea] at h
      constructor
      · intro l hl hlne
        rw [hl] at hea
        simp [truthyL] at hea
        exact absurd hea hlne
      · intro _
        split at h
        · rename_i hle
          rw [Except.ok.injEq, Prod.mk.injEq] at h
          obtain ⟨h1, h2⟩ := h
          subst h1
          subst h2
          rw [if_pos hle]
        · rename_i hle
          rw [Except.ok.injEq, Prod.mk.injEq] at h
          obtain ⟨h1, h2⟩ := h
          subst h1
          subst h2
          rw [if_neg hle]

/-- Witness for C2: no arguments at `now = 2024-06-10 05:00` resolve to
today → today + 14 days end-of-day. -/
theorem parse_date_arguments_end_rule_inst :
    parse_date_arguments gNone nowA none none =
      Except.ok (⟨2024, 6, 10, 0, 0, 0, 0⟩, ⟨2024, 6, 24, 23, 59, 59, 999999⟩) ∧
    (⟨2024, 6, 24, 23, 59, 59, 999999⟩ : DateTime) =
      (if dtLE (midnight nowA) (⟨2024, 6, 10, 0, 0, 0, 0⟩ : DateTime)
       then endOfDay (addDays (⟨2024, 6, 10, 0, 0, 0, 0⟩ : DateTime) 14)
       else endOfDay (midnight nowA)) :=
  ⟨rfl,
   (parse_date_arguments_end_rule gNone nowA none none
      ⟨2024, 6, 10, 0, 0, 0, 0⟩ ⟨2024, 6, 24, 23, 59, 59, 999999⟩ rfl).2 (Or.inl rfl)⟩

/-- Counterexample to C9 as stated: the code's `parse_human_date` takes no
`now` parameter — it reads `datetime.now()` internally — and its result for
the fixed argument `"today"` changes with that ambient instant. -/
theorem parse_human_date_clock_dependence :
    (parse_human_date gNone nowA (("today").data)).toOption ≠
      (parse_human_date gNone nowB (("today").data)).toOption := by
  decide

/-- C9 (amended): with the sampled clock instant modelled as an explicit
argument, the resolver and human-date parser are deterministic: they depend
on nothing besides their arguments and the sampled instant, and on that
instant only through its midnight truncation. -/
theorem resolver_deterministic :
    ∀ (g : DateTime → List Char → Option DateTime) (nowX nowY : DateTime)
      (s : List Char) (sa ea : Option (List Char)),
      midnight nowX = midnight nowY →
      parse_human_date g nowX s = parse_human_date g nowY s ∧
      parse_date_arguments g nowX sa ea = parse_date_arguments g nowY sa ea := by
  intro g nowX nowY s sa ea h
  refine ⟨phd_midnight_only g nowX nowY s h, ?_⟩
  have hphd : ∀ l, parse_human_date g nowX l = parse_human_date g nowY l :=
    fun l => phd_midnight_only g nowX nowY l h
  simp only [parse_date_arguments, h, hphd]

/-- Witness for C9 (amended): two instants on the same day give identical
results. -/
theorem resolver_deterministic_inst :
    parse_human_date gNone nowA (("today").data) =
      parse_human_date gNone nowA2 (("today").data) ∧
    parse_date_arguments gNone nowA none none =
      parse_date_arguments gNone nowA2 none none :=
  resolver_deterministic gNone nowA nowA2 (("today").data) none none (by decide)

/-- `List.find?` at a matching head. -/
theorem findq_cons_pos {α : Type} (p : α → Bool) (a : α) (l : List α) (h : p a = true) :
    List.find? p (a :: l) = some a := by
  rw [List.find?_cons, h]

/-- `List.find?` at a non-matching head. -/
theorem findq_cons_neg {α : Type} (p : α → Bool) (a : α) (l : List α) (h : ¬ p a = true) :
    List.find? p (a :: l) = List.find? p l := by
  rw [List.find?_cons]
  rw [Bool.not_eq_true] at h
  rw [h]

/-- `List.filter` at a kept head. -/
theorem filter_cons_pos {α : Type} (p : α → Bool) (a : α) (l : List α) (h : p a = true) :
    List.filter p (a :: l) = a :: List.filter p l := by
  rw [List.filter_cons, if_pos h]

/-- `List.filter` at a dropped head. -/
theorem filter_cons_neg {α : Type} (p : α → Bool) (a : α) (l : List α) (h : ¬ p a = true) :
    List.filter p (a :: l) = List.filter p l := by
  rw [List.filter_cons, if_neg h]

/-- Lower-casing maps only the empty string to the empty string. -/
theorem lowerS_eq_empty_iff (u : String) : lowerS u = "" ↔ u = "" := by
  constructor
  · intro h
    have hd : pyLower u.data = [] := congrArg String.data h
    simp only [pyLower] at hd
    rw [List.map_eq_nil_iff] at hd
    cases u with
    | mk d =>
      simp only at hd
      rw [hd]
  · intro h
    rw [h]
    rfl

/-- For a non-empty user email, the code's comparison on `get('email','')`
agrees with "some present email matches case-insensitively". -/
theorem email_match_iff (u : String) (hu : u ≠ "") (a : Attendee) :
    ((lowerS (a.email.getD "") == lowerS u) = true) ↔
      (∃ em, a.email = some em ∧ lowerS em = lowerS u) := by
  cases hem : a.email with
  | none =>
    simp only [hem, Option.getD_none]
    constructor
    · intro h
      rw [beq_iff_eq] at h
      have hlu : lowerS u = "" := h.symm.trans rfl
      exact absurd ((lowerS_eq_empty_iff u).mp hlu) hu
    · rintro ⟨em, hem2, _⟩
      exact absurd hem2 (by simp)
  | some em =>
    simp [hem, beq_iff_eq]

/-- `is_user_invited` agrees with the specification's invited condition. -/
theorem invited_iff_spec (e : Event) (u : String) (hu : u ≠ "") :
    is_user_invited e u = true ↔
      (e.attendees = [] ∨
        ∃ a, a ∈ e.attendees ∧ ∃ em, a.email = some em ∧ lowerS em = lowerS u) := by
  unfold is_user_invited
  by_cases h : e.attendees.isEmpty
  · rw [if_pos h]
    rw [List.isEmpty_iff] at h
    simp [h]
  · rw [if_neg h]
    have hne : e.attendees ≠ [] := by
      intro hc
      rw [hc] at h
      exact h rfl
    rw [List.any_eq_true]
    constructor
    · rintro ⟨a, ha, hPa⟩
      exact Or.inr ⟨a, ha, (email_match_iff u hu a).mp hPa⟩
    · rintro (hnil | ⟨a, ha, hm⟩)
      · exact absurd hnil hne
      · exact ⟨a, ha, (email_match_iff u hu a).mpr hm⟩

/-- When the user email matches at most one attendee entry,
`has_user_declined` (a first-match lookup) agrees with the specification's
"the user's attendee entry has declined". -/
theorem declined_iff_aux (u : String) (hu : u ≠ "") (l : List Attendee)
    (huniq : (l.filter (fun a => lowerS (a.email.getD "") == lowerS u)).length ≤ 1) :
    (match l.find? (fun a => lowerS (a.email.getD "") == lowerS u) with
      | some a => a.responseStatus == some ("declined")
      | none => false) = true ↔
      ∃ a, a ∈ l ∧ (∃ em, a.email = some em ∧ lowerS em = lowerS u) ∧
        a.responseStatus = some ("declined") := by
  revert huniq
  induction l with
  | nil =>
    intro _
    simp
  | cons a rest ih =>
    intro huniq
    by_cases hP : (lowerS (a.email.getD "") == lowerS u) = true
    · rw [findq_cons_pos (fun a => lowerS (a.email.getD "") == lowerS u) a rest hP]
      rw [filter_cons_pos (fun a => lowerS (a.email.getD "") == lowerS u) a rest hP] at huniq
      have hfil : rest.filter (fun a => lowerS (a.email.getD "") == lowerS u) = [] := by
        rw [List.length_cons] at huniq
        exact List.length_eq_zero.mp (by omega)
      have hnone : ∀ b ∈ rest, ¬ ((lowerS (b.email.getD "") == lowerS u) = true) := by
        intro b hb hPb
        have hmem : b ∈ rest.filter (fun a => lowerS (a.email.getD "") == lowerS u) :=
          List.mem_filter.mpr ⟨hb, hPb⟩
        rw [hfil] at hmem
        exact absurd hmem (List.not_mem_nil b)
      constructor
      · intro hd
        exact ⟨a, List.mem_cons_self a rest, (email_match_iff u hu a).mp hP, beq_iff_eq.mp hd⟩
      · rintro ⟨b, hb, hbm, hbd⟩
        rcases List.mem_cons.mp hb with rfl | hbrest
        · exact beq_iff_eq.mpr hbd
        · exact absurd ((email_match_iff u hu b).mpr hbm) (hnone b hbrest)
    · rw [findq_cons_neg (fun a => lowerS (a.email.getD "") == lowerS u) a rest hP]
      rw [filter_cons_neg (fun a => lowerS (a.email.getD "") == lowerS u) a rest hP] at huniq
      rw [ih huniq]
      constructor
      · rintro ⟨b, hb, hbm, hbd⟩
        exact ⟨b, List.mem_cons_of_mem a hb, hbm, hbd⟩
      · rintro ⟨b, hb, hbm, hbd⟩
        rcases List.mem_cons.mp hb with rfl | hbrest
        · exact absurd ((email_match_iff u hu b).mpr hbm) hP
        · exact ⟨b, hbrest, hbm, hbd⟩

/-- When the user email matches at most one attendee entry,
`has_user_declined` (a first-match lookup) agrees with the specification's
"the user's attendee entry has declined". -/
theorem declined_iff_spec (e : Event) (u : String) (hu : u ≠ "")
    (huniq : (e.attendees.filter (fun a => lowerS (a.email.getD "") == lowerS u)).length ≤ 1) :
    has_user_declined e u = true ↔
      ∃ a, a ∈ e.attendees ∧ (∃ em, a.email = some em ∧ lowerS em = lowerS u) ∧
        a.responseStatus = some ("declined") :=
  declined_iff_aux u hu e.attendees huniq

/-- C1: for a non-empty user email matching at most one attendee entry,
`should_include_event` returns true iff the event is not a working-location
event, the user is invited (or there are no attendees), and it is not a
strictly-future event the user has declined — with absent or unparseable
start times never excluding. -/
theorem should_include_event_iff :
    ∀ (toInstant : String → Option Int) (e : Event) (u : String) (now : Int),
      u ≠ "" →
      (e.attendees.filter (fun a => lowerS (a.email.getD "") == lowerS u)).length ≤ 1 →
      (should_include_event toInstant e u now = true ↔ includeSpec toInstant e u now) := by
  intro toInstant e u now hu huniq
  unfold should_include_event includeSpec
  by_cases hwl : (e.eventType == some ("workingLocation")) = true
  · rw [if_pos hwl]
    rw [beq_iff_eq] at hwl
    simp [hwl]
  · rw [if_neg hwl]
    have hwl2 : e.eventType ≠ some ("workingLocation") := by
      intro hc
      exact hwl (beq_iff_eq.mpr hc)
    by_cases hinv : is_user_invited e u = true
    · rw [hinv]
      simp only [Bool.not_true, Bool.false_eq_true, if_false]
      have hinv2 := (invited_iff_spec e u hu).mp hinv
      by_cases hsv : pyOrVal e.start.dateTime e.start.date = ""
      · rw [if_pos hsv]
        constructor
        · intro _
          refine ⟨hwl2, hinv2, ?_⟩
          rintro ⟨t, hne, _, _, _⟩
          exact hne hsv
        · intro _
          rfl
      · rw [if_neg hsv]
        cases hti : toInstant (pyOrVal e.start.dateTime e.start.date) with
        | none =>
          constructor
          · intro _
            refine ⟨hwl2, hinv2, ?_⟩
            rintro ⟨t, _, hsome, _, _⟩
            exact absurd hsome (by simp)
          · intro _
            rfl
        | some t =>
          show ((if (decide (now < t) && has_user_declined e u) = true then false else true)
              = true) ↔ _
          by_cases hc : (decide (now < t) && has_user_declined e u) = true
          · rw [if_pos hc]
            rw [Bool.and_eq_true, decide_eq_true_eq] at hc
            obtain ⟨hlt, hdecl⟩ := hc
            constructor
            · intro hfalse
              exact absurd hfalse (by simp)
            · rintro ⟨_, _, hno⟩
              exact absurd
                ⟨t, hsv, rfl, hlt, (declined_iff_spec e u hu huniq).mp hdecl⟩ hno
          · rw [if_neg hc]
            constructor
            · intro _
              refine ⟨hwl2, hinv2, ?_⟩
              rintro ⟨t2, _, hsome2, hlt2, hdecl2⟩
              have ht2 : t = t2 := Option.some.inj hsome2
              rw [← ht2] at hlt2
              apply hc
              rw [Bool.and_eq_true, decide_eq_true_eq]
              exact ⟨hlt2, (declined_iff_spec e u hu huniq).mpr hdecl2⟩
            · intro _
              rfl
    · have hinvf : is_user_invited e u = false := by
        cases hx : is_user_invited e u with
        | true => exact absurd hx hinv
        | false => rfl
      rw [hinvf]
      simp only [Bool.not_false, if_true]
      constructor
      · intro hfalse
        exact absurd hfalse (by simp)
      · rintro ⟨_, hinv2, _⟩
        exact absurd ((invited_iff_spec e u hu).mpr hinv2) hinv

/-- Witness for C1 at a concrete future accepted event. -/
theorem should_include_event_iff_inst :
    includeSpec instHundred evC1 ("a@b.com") 50 :=
  (should_include_event_iff instHundred evC1 ("a@b.com") 50 (by decide) (by decide)).mp
    (by decide)

/-- Numeric bounds of an ASCII digit character. -/
theorem isDigitC_bounds {c : Char} (h : isDigitC c = true) : 48 ≤ c.toNat ∧ c.toNat ≤ 57 := by
  unfold isDigitC at h
  simp only [Bool.and_eq_true, decide_eq_true_eq] at h
  exact h

/-- A character outside the digit range is `==`-distinct from a digit. -/
theorem digit_beq_false {c : Char} (d : Char) (h : isDigitC c = true)
    (hd : d.toNat < 48 ∨ 57 < d.toNat) : (d == c) = false := by
  obtain ⟨h1, h2⟩ := isDigitC_bounds h
  rw [beq_eq_false_iff_ne]
  intro he
  rw [← he] at h1 h2
  omega

/-- Digits are not Python whitespace. -/
theorem isPySpace_digit {c : Char} (h : isDigitC c = true) : isPySpace c = false := by
  obtain ⟨h1, h2⟩ := isDigitC_bounds h
  unfold isPySpace
  simp only [Bool.or_eq_false_iff, decide_eq_false_iff_not]
  omega

/-- Lower-casing fixes digits. -/
theorem pyLowerChar_digit {c : Char} (h : isDigitC c = true) : pyLowerChar c = c := by
  obtain ⟨h1, h2⟩ := isDigitC_bounds h
  unfold pyLowerChar
  rw [if_neg (by simp only [Bool.and_eq_true, decide_eq_true_eq]; omega)]

/-- Lower-casing distributes over an all-digit block. -/
theorem pyLower_append_digits (ds t : List Char) (hdig : ∀ c ∈ ds, isDigitC c = true) :
    pyLower (ds ++ t) = ds ++ pyLower t := by
  unfold pyLower
  rw [List.map_append]
  congr 1
  have h2 : ds.map pyLowerChar = ds.map id :=
    List.map_congr_left (fun a ha => pyLowerChar_digit (hdig a ha))
  rw [h2, List.map_id]

/-- `dropWhile` stays inside the left block when it does not exhaust it. -/
theorem dropWhile_append_of_ne_nil (p : Char → Bool) (a b : List Char)
    (h : a.dropWhile p ≠ []) : (a ++ b).dropWhile p = a.dropWhile p ++ b := by
  induction a with
  | nil => exact absurd rfl h
  | cons c cs ih =>
    by_cases hc : p c = true
    · rw [List.dropWhile_cons, if_pos hc] at h
      rw [List.cons_append, List.dropWhile_cons, if_pos hc, List.dropWhile_cons, if_pos hc]
      exact ih h
    · rw [List.cons_append, List.dropWhile_cons, if_neg hc, List.dropWhile_cons, if_neg hc]
      rfl

/-- `strip` of a digit block followed by a tail holding a non-space: the
left end is untouched and only the tail is right-stripped. -/
theorem pyStrip_append_digits (ds t : List Char) (hne : ds ≠ [])
    (hdig : ∀ c ∈ ds, isDigitC c = true)
    (ht : t.reverse.dropWhile isPySpace ≠ []) :
    pyStrip (ds ++ t) = ds ++ (t.reverse.dropWhile isPySpace).reverse := by
  obtain ⟨c, cs, rfl⟩ := List.exists_cons_of_ne_nil hne
  have hc : isDigitC c = true := hdig c (by simp)
  unfold pyStrip
  rw [List.cons_append, List.dropWhile_cons, if_neg (by simp [isPySpace_digit hc])]
  rw [show c :: (cs ++ t) = (c :: cs) ++ t from rfl]
  rw [List.reverse_append]
  rw [dropWhile_append_of_ne_nil isPySpace t.reverse (c :: cs).reverse ht]
  rw [List.reverse_append, List.reverse_reverse]

/-- A block is its own leading block. -/
theorem startsWithL_self_append (p r : List Char) : startsWithL p (p ++ r) = true := by
  induction p with
  | nil => rfl
  | cons c cs ih => simp [startsWithL, ih]

/-- A string contains its own leading block. -/
theorem containsSub_self_append (p r : List Char) : containsSub p (p ++ r) = true := by
  cases p with
  | nil =>
    cases r with
    | nil => rfl
    | cons c cs => simp [containsSub, startsWithL]
  | cons c cs =>
    have h := startsWithL_self_append (c :: cs) r
    rw [List.cons_append] at h
    rw [List.cons_append]
    simp [containsSub, h]

/-- Substring membership is preserved by prepending. -/
theorem containsSub_append_right (p t x : List Char) (h : containsSub p t = true) :
    containsSub p (x ++ t) = true := by
  induction x with
  | nil => simpa using h
  | cons c cs ih =>
    rw [List.cons_append]
    simp only [containsSub]
    rw [ih]
    simp

/-- `replaceFuel` ignores the exact fuel once it dominates the length. -/
theorem replaceFuel_irrel (p : List Char) : ∀ (f1 f2 : Nat) (l : List Char),
    l.length ≤ f1 → l.length ≤ f2 → replaceFuel p f1 l = replaceFuel p f2 l := by
  intro f1
  induction f1 with
  | zero =>
    intro f2 l h1 _
    have hl : l = [] := by
      cases l with
      | nil => rfl
      | cons c cs => simp at h1
    subst hl
    cases f2 with
    | zero => rfl
    | succ m => rfl
  | succ n ih =>
    intro f2 l h1 h2
    cases l with
    | nil =>
      cases f2 with
      | zero => rfl
      | succ m => rfl
    | cons c cs =>
      cases f2 with
      | zero => simp at h2
      | succ m =>
        simp only [replaceFuel]
        rw [List.length_cons] at h1 h2
        by_cases hg : (!p.isEmpty && startsWithL p (c :: cs)) = true
        · rw [if_pos hg, if_pos hg]
          apply ih
          · rw [List.length_drop]
            omega
          · rw [List.length_drop]
            omega
        · rw [if_neg hg, if_neg hg]
          rw [ih m cs (by omega) (by omega)]

/-- `replace("ago", "")` passes over a leading all-digit block. -/
theorem replaceSub_append_digits : ∀ (ds : List Char), (∀ c ∈ ds, isDigitC c = true) →
    ∀ (t : List Char),
      replaceSub (("ago").data) (ds ++ t) = ds ++ replaceSub (("ago").data) t := by
  intro ds
  induction ds with
  | nil =>
    intro _ t
    rfl
  | cons c cs ih =>
    intro hdig t
    have hc : isDigitC c = true := hdig c (by simp)
    have ha : ('a' == c) = false := digit_beq_false 'a' hc (by decide)
    have hg : (!(("ago").data).isEmpty && startsWithL (("ago").data) (c :: (cs ++ t)))
        = false := by
      show (!(("ago").data).isEmpty
          && startsWithL ('a' :: (("go").data)) (c :: (cs ++ t))) = false
      simp only [startsWithL]
      rw [ha]
      simp
    rw [List.cons_append]
    unfold replaceSub
    rw [List.length_cons]
    simp only [replaceFuel]
    rw [if_neg (by rw [hg]; exact Bool.false_ne_true)]
    rw [List.cons_append]
    congr 1
    exact ih (fun x hx => hdig x (List.mem_cons_of_mem c hx)) t

/-- The whitespace splitter accumulates a leading all-digit block. -/
theorem splitAux_append_digits : ∀ (ds : List Char), (∀ c ∈ ds, isDigitC c = true) →
    ∀ (acc t : List Char), splitAux acc (ds ++ t) = splitAux (ds.reverse ++ acc) t := by
  intro ds
  induction ds with
  | nil =>
    intro _ acc t
    rfl
  | cons c cs ih =>
    intro hdig acc t
    have hc : isDigitC c = true := hdig c (by simp)
    rw [List.cons_append]
    simp only [splitAux]
    rw [if_neg (by simp [isPySpace_digit hc])]
    rw [ih (fun x hx => hdig x (List.mem_cons_of_mem c hx)) (c :: acc) t]
    congr 1
    rw [List.reverse_cons, List.append_assoc]
    rfl

/-- The splitter closes the current token at a whitespace character. -/
theorem splitAux_space (acc : List Char) (hacc : acc ≠ []) (c : Char)
    (hc : isPySpace c = true) (rest : List Char) :
    splitAux acc (c :: rest) = acc.reverse :: splitAux [] rest := by
  obtain ⟨a, as, rfl⟩ := List.exists_cons_of_ne_nil hacc
  simp [splitAux, hc]

/-- `int()` evaluates an all-digit token to its decimal value. -/
theorem pyInt_digits (ds : List Char) (hne : ds ≠ []) (hdig : ∀ c ∈ ds, isDigitC c = true) :
    pyInt ds = some ((digitsVal ds : Int)) := by
  obtain ⟨c, cs, rfl⟩ := List.exists_cons_of_ne_nil hne
  have hc : isDigitC c = true := hdig c (by simp)
  obtain ⟨h1, h2⟩ := isDigitC_bounds hc
  simp only [pyInt]
  rw [if_neg (show ¬ c = '-' by
        intro hm
        have hh := congrArg Char.toNat hm
        rw [show ('-').toNat = 45 from rfl] at hh
        omega)]
  rw [if_neg (show ¬ c = '+' by
        intro hm
        have hh := congrArg Char.toNat hm
        rw [show ('+').toNat = 43 from rfl] at hh
        omega)]
  rw [if_pos (show (c :: cs).all isDigitC = true by
        rw [List.all_eq_true]
        exact hdig)]

/-- Full evaluation of the `ago` branch on `<digits> ++ tail`, with the
closed intermediate stages supplied as decidable side conditions. -/
theorem agoResult_eval (today : DateTime) (u : TUnit) (ds tail rest us : List Char) (c : Char)
    (hne : ds ≠ []) (hdig : ∀ x ∈ ds, isDigitC x = true)
    (hcont : containsSub (("ago").data) tail = true)
    (hstrip : ((replaceSub (("ago").data) tail).reverse.dropWhile isPySpace).reverse
      = c :: rest)
    (hc : isPySpace c = true)
    (hrest : splitAux [] rest = [us])
    (hus : rstripS us = unitChars u false) :
    agoResult today (ds ++ tail) = some (agoSpec today u (digitsVal ds)) := by
  have hrevne : ds.reverse ≠ [] := by
    intro hx
    exact hne (List.reverse_eq_nil_iff.mp hx)
  have hrepne : (replaceSub (("ago").data) tail).reverse.dropWhile isPySpace ≠ [] := by
    intro hx
    rw [hx] at hstrip
    exact absurd hstrip.symm (List.cons_ne_nil c rest)
  unfold agoResult
  rw [if_pos (containsSub_append_right (("ago").data) tail ds hcont)]
  rw [replaceSub_append_digits ds hdig tail]
  rw [pyStrip_append_digits ds (replaceSub (("ago").data) tail) hne hdig hrepne]
  rw [hstrip]
  have hsplit : pySplit (ds ++ (c :: rest)) = ds :: [us] := by
    unfold pySplit
    rw [splitAux_append_digits ds hdig [] (c :: rest)]
    rw [List.append_nil]
    rw [splitAux_space ds.reverse hrevne c hc rest]
    rw [List.reverse_reverse, hrest]
  rw [hsplit]
  simp only [agoFromParts]
  rw [pyInt_digits ds hne hdig, hus]
  simp only [agoFromInt]
  cases u
  · rw [if_pos (show unitChars TUnit.day false = ['d', 'a', 'y'] from by decide)]
    rfl
  · rw [if_neg (show ¬ unitChars TUnit.week false = ['d', 'a', 'y'] from by decide)]
    rw [if_pos (show unitChars TUnit.week false = ['w', 'e', 'e', 'k'] from by decide)]
    rfl
  · rw [if_neg (show ¬ unitChars TUnit.month false = ['d', 'a', 'y'] from by decide)]
    rw [if_neg (show ¬ unitChars TUnit.month false = ['w', 'e', 'e', 'k'] from by decide)]
    rw [if_pos (show unitChars TUnit.month false = ['m', 'o', 'n', 't', 'h'] from by decide)]
    rfl
  · rw [if_neg (show ¬ unitChars TUnit.year false = ['d', 'a', 'y'] from by decide)]
    rw [if_neg (show ¬ unitChars TUnit.year false = ['w', 'e', 'e', 'k'] from by decide)]
    rw [if_neg (show ¬ unitChars TUnit.year false = ['m', 'o', 'n', 't', 'h'] from by decide)]
    rw [if_pos (show unitChars TUnit.year false = ['y', 'e', 'a', 'r'] from by decide)]
    rfl

/-- C3: `parse_human_date` on `"<digits> <unit>(s) ago"` returns `today`
minus that many units — fixed-duration subtraction for day/week,
calendar-field shifting with month-end clamping for month/year. -/
theorem parse_human_date_ago_units :
    ∀ (g : DateTime → List Char → Option DateTime) (now : DateTime) (ds : List Char)
      (u : TUnit) (pl : Bool),
      ds ≠ [] → (∀ c ∈ ds, isDigitC c = true) → 0 < digitsVal ds →
      parse_human_date g now (ds ++ (' ' :: (unitChars u pl ++ (' ' :: (("ago").data))))) =
        Except.ok (agoSpec (midnight now) u (digitsVal ds)) := by
  intro g now ds u pl hne hdig hpos
  have hnorm : normalizeStr (ds ++ (' ' :: (unitChars u pl ++ (' ' :: (("ago").data))))) =
      ds ++ (' ' :: (unitChars u pl ++ (' ' :: (("ago").data)))) := by
    unfold normalizeStr
    rw [pyStrip_append_digits ds _ hne hdig (by cases u <;> cases pl <;> decide)]
    rw [pyLower_append_digits ds _ hdig]
    congr 1
    cases u <;> cases pl <;> decide
  have hago : agoResult (midnight now)
      (ds ++ (' ' :: (unitChars u pl ++ (' ' :: (("ago").data))))) =
      some (agoSpec (midnight now) u (digitsVal ds)) := by
    cases u <;> cases pl
    · exact agoResult_eval (midnight now) TUnit.day ds _ (("day").data) (("day").data) ' '
        hne hdig (by decide) (by decide) (by decide) (by decide) (by decide)
    · exact agoResult_eval (midnight now) TUnit.day ds _ (("days").data) (("days").data) ' '
        hne hdig (by decide) (by decide) (by decide) (by decide) (by decide)
    · exact agoResult_eval (midnight now) TUnit.week ds _ (("week").data) (("week").data) ' '
        hne hdig (by decide) (by decide) (by decide) (by decide) (by decide)
    · exact agoResult_eval (midnight now) TUnit.week ds _ (("weeks").data) (("weeks").data) ' '
        hne hdig (by decide) (by decide) (by decide) (by decide) (by decide)
    · exact agoResult_eval (midnight now) TUnit.month ds _ (("month").data) (("month").data) ' '
        hne hdig (by decide) (by decide) (by decide) (by decide) (by decide)
    · exact agoResult_eval (midnight now) TUnit.month ds _ (("months").data) (("months").data) ' '
        hne hdig (by decide) (by decide) (by decide) (by decide) (by decide)
    · exact agoResult_eval (midnight now) TUnit.year ds _ (("year").data) (("year").data) ' '
        hne hdig (by decide) (by decide) (by decide) (by decide) (by decide)
    · exact agoResult_eval (midnight now) TUnit.year ds _ (("years").data) (("years").data) ' '
        hne hdig (by decide) (by decide) (by decide) (by decide) (by decide)
  simp only [parse_human_date]
  rw [hnorm, hago]

/-- Witness for C3: `"1 month ago"` from 2024-03-31 gives 2024-02-29 (leap
year) and from 2023-03-31 gives 2023-02-28 (clamped). -/
theorem parse_human_date_ago_units_inst :
    parse_human_date gNone now0331
        ((("1").data) ++ (' ' :: (unitChars TUnit.month false ++ (' ' :: (("ago").data))))) =
      Except.ok (⟨2024, 2, 29, 0, 0, 0, 0⟩ : DateTime) ∧
    parse_human_date gNone now0331b
        ((("1").data) ++ (' ' :: (unitChars TUnit.month false ++ (' ' :: (("ago").data))))) =
      Except.ok (⟨2023, 2, 28, 0, 0, 0, 0⟩ : DateTime) :=
  ⟨(parse_human_date_ago_units gNone now0331 (("1").data) TUnit.month false
      (by decide) (by decide) (by decide)).trans (by rfl),
   (parse_human_date_ago_units gNone now0331b (("1").data) TUnit.month false
      (by decide) (by decide) (by decide)).trans (by rfl)⟩

/-- `parse_human_date` returns an error exactly when all five parsing
strategies fail on the normalized input. -/
theorem phd_error_iff (g : DateTime → List Char → Option DateTime) (now : DateTime)
    (s0 : List Char) :
    (∃ msg, parse_human_date g now s0 = Except.error msg) ↔ allStrategiesFail g now s0 := by
  simp only [parse_human_date, allStrategiesFail]
  cases hago : agoResult (midnight now) (normalizeStr s0) with
  | some d => simp
  | none =>
    cases hin : inResult (midnight now) (normalizeStr s0) with
    | some d => simp
    | none =>
      by_cases h1 : normalizeStr s0 = ("today").data
      · simp [h1]
      · by_cases h2 : normalizeStr s0 = ("yesterday").data
        · simp [h1, h2]
        · by_cases h3 : normalizeStr s0 = ("tomorrow").data
          · simp [h1, h2, h3]
          · cases hg : g (midnight now) (normalizeStr s0) with
            | some d => simp [h1, h2, h3]
            | none =>
              cases hymd : ymdResult (normalizeStr s0) with
              | some d => simp [h1, h2, h3]
              | none => simp [h1, h2, h3]

/-- Any error raised by `parse_human_date` carries exactly the line-138
message built from the normalized input. -/
theorem phd_error_msg (g : DateTime → List Char → Option DateTime) (now : DateTime)
    (s0 msg : List Char) (h : parse_human_date g now s0 = Except.error msg) :
    msg = dateErrMsg (normalizeStr s0) := by
  simp only [parse_human_date] at h
  cases hago : agoResult (midnight now) (normalizeStr s0) with
  | some d =>
    rw [hago] at h
    exact absurd h (by simp)
  | none =>
    rw [hago] at h
    cases hin : inResult (midnight now) (normalizeStr s0) with
    | some d =>
      rw [hin] at h
      exact absurd h (by simp)
    | none =>
      rw [hin] at h
      by_cases h1 : normalizeStr s0 = ("today").data
      · rw [if_pos h1] at h
        exact absurd h (by simp)
      · rw [if_neg h1] at h
        by_cases h2 : normalizeStr s0 = ("yesterday").data
        · rw [if_pos h2] at h
          exact absurd h (by simp)
        · rw [if_neg h2] at h
          by_cases h3 : normalizeStr s0 = ("tomorrow").data
          · rw [if_pos h3] at h
            exact absurd h (by simp)
          · rw [if_neg h3] at h
            cases hg : g (midnight now) (normalizeStr s0) with
            | some d =>
              rw [hg] at h
              exact absurd h (by simp)
            | none =>
              rw [hg] at h
              cases hymd : ymdResult (normalizeStr s0) with
              | some d =>
                rw [hymd] at h
                exact absurd h (by simp)
              | none =>
                rw [hymd] at h
                exact (Except.error.inj h).symm

/-- The line-138 error message contains the offending (normalized) string
and each of the example formats. -/
theorem dateErrMsg_contains (s : List Char) :
    containsSub s (dateErrMsg s) = true ∧
    containsSub (("2024-01-15").data) (dateErrMsg s) = true ∧
    containsSub (("yesterday").data) (dateErrMsg s) = true ∧
    containsSub (("2 weeks ago").data) (dateErrMsg s) = true ∧
    containsSub (("next Monday").data) (dateErrMsg s) = true := by
  unfold dateErrMsg
  refine ⟨?_, ?_, ?_, ?_, ?_⟩
  · simp only [List.append_assoc]
    apply containsSub_append_right
    apply containsSub_append_right
    exact containsSub_self_append s _
  · simp only [List.append_assoc]
    apply containsSub_append_right
    apply containsSub_append_right
    apply containsSub_append_right
    decide
  · simp only [List.append_assoc]
    apply containsSub_append_right
    apply containsSub_append_right
    apply containsSub_append_right
    decide
  · simp only [List.append_assoc]
    apply containsSub_append_right
    apply containsSub_append_right
    apply containsSub_append_right
    decide
  · simp only [List.append_assoc]
    apply containsSub_append_right
    apply containsSub_append_right
    apply containsSub_append_right
    decide

/-- C7 (amended): `parse_human_date` raises exactly when every strategy
(`ago` phrase, `in` phrase, named terms, general parse, strict YYYY-MM-DD)
fails; the raised message contains the normalized (trimmed, lower-cased)
offending string and the example formats; and a date-parse failure makes
`main` exit 1 with the message on the diagnostic stream only. -/
theorem parse_human_date_error_chain :
    ∀ (g : DateTime → List Char → Option DateTime) (now : DateTime) (s0 : List Char),
      ((∃ msg, parse_human_date g now s0 = Except.error msg) ↔ allStrategiesFail g now s0) ∧
      (∀ msg, parse_human_date g now s0 = Except.error msg →
        containsSub (normalizeStr s0) msg = true ∧
        containsSub (("2024-01-15").data) msg = true ∧
        containsSub (("yesterday").data) msg = true ∧
        containsSub (("2 weeks ago").data) msg = true ∧
        containsSub (("next Monday").data) msg = true) ∧
      (∀ (sa ea : Option (List Char)) (toInstant : String → Option Int)
         (fromiso : String → Option DateTime) (u : String) (nowI : Int)
         (api : Except String (List Event)) (msg : List Char),
         parse_date_arguments g now sa ea = Except.error msg →
         main_model g now sa ea toInstant fromiso u nowI api = ⟨1, [], [Line.errorMsg msg]⟩) := by
  intro g now s0
  refine ⟨phd_error_iff g now s0, ?_, ?_⟩
  · intro msg h
    rw [phd_error_msg g now s0 msg h]
    exact dateErrMsg_contains (normalizeStr s0)
  · intro sa ea toInstant fromiso u nowI api msg h
    unfold main_model
    rw [h]

/-- Counterexample to C7 as stated: on input `"XYZZY"` every strategy fails
and `parse_human_date` raises, but the message contains only the normalized
`xyzzy`, not the offending string `XYZZY` itself. -/
theorem parse_error_msg_normalized :
    (parse_human_date gNone nowA (("XYZZY").data)).toOption = none ∧
    errOf (parse_human_date gNone nowA (("XYZZY").data)) = dateErrMsg (("xyzzy").data) ∧
    containsSub (("XYZZY").data)
      (errOf (parse_human_date gNone nowA (("XYZZY").data))) = false := by
  decide

/-- Witness for C7 (amended) at the failing input `"zzz"`. -/
theorem parse_human_date_error_chain_inst :
    containsSub (normalizeStr (("zzz").data)) (dateErrMsg (("zzz").data)) = true ∧
    containsSub (("2024-01-15").data) (dateErrMsg (("zzz").data)) = true ∧
    containsSub (("yesterday").data) (dateErrMsg (("zzz").data)) = true ∧
    containsSub (("2 weeks ago").data) (dateErrMsg (("zzz").data)) = true ∧
    containsSub (("next Monday").data) (dateErrMsg (("zzz").data)) = true :=
  (parse_human_date_error_chain gNone nowA (("zzz").data)).2.1 (dateErrMsg (("zzz").data)) rfl

end CalEv
